import Mathlib

/-!
# WindowsEditDialog.cpp : soft-input edit dialog

A shallow embedding of `WindowsEditDialog.cpp` (Unity.Tiny.Windows): the
dialog-unit arithmetic and the binary dialog template written by
`OpenEditField`, and the shared input state driven by the exported accessors
and by `DialogProc`.

Conventions
* `WORD`, `DWORD`, `ULONG64` values are natural numbers reduced modulo
  `2^16`, `2^32`, `2^64` where the source stores into such a variable.
* `short` fields of the platform structures are kept as their 16-bit pattern
  and read back through `toShort`.
* A window handle is a natural number, `0` being `NULL`.
* A `std::vector<WCHAR>` is a `List Nat` of code units.
-/

namespace WindowsEditDialog

/-! ## Constants of the source file -/

def ID_EDITTEXT : Nat := 200
def EDITFIELD_HEIGHT : Nat := 100
def EDITFIELD_MARGINX : Nat := 10
def EDITFIELD_MARGINY : Nat := 20

/-- Size in bytes of the block `OpenEditField` obtains from `GlobalAlloc`. -/
def TEMPLATE_BYTES : Nat := 2048

/-! ## Platform constants (winuser.h) used by the source -/

def IDOK : Nat := 1
def IDCANCEL : Nat := 2
def WS_POPUP : Nat := 0x80000000
def WS_CHILD : Nat := 0x40000000
def WS_VISIBLE : Nat := 0x10000000
def WS_CAPTION : Nat := 0x00C00000
def WS_BORDER : Nat := 0x00800000
def WS_SYSMENU : Nat := 0x00080000
def DS_MODALFRAME : Nat := 0x80
def BS_PUSHBUTTON : Nat := 0
def BS_DEFPUSHBUTTON : Nat := 1
def ES_LEFT : Nat := 0
def ES_MULTILINE : Nat := 0x0004
def ES_PASSWORD : Nat := 0x0020
def ES_AUTOVSCROLL : Nat := 0x0040
def ES_WANTRETURN : Nat := 0x1000
def ES_NUMBER : Nat := 0x2000

/-- The `sizeof(DLGTEMPLATE)`: style, dwExtendedStyle, cdit, x, y, cx, cy (2-byte packing). -/
def SIZEOF_DLGTEMPLATE : Nat := 18
/-- The `sizeof(DLGITEMTEMPLATE)`: style, dwExtendedStyle, x, y, cx, cy, id (2-byte packing). -/
def SIZEOF_DLGITEMTEMPLATE : Nat := 18

/-! ## Machine integers -/

/-- Conversion to `WORD` (16-bit unsigned). -/
def toWORD (i : Int) : Nat := (i % 65536).toNat

/-- Conversion to `DWORD` (32-bit unsigned). -/
def toDWORD (i : Int) : Nat := (i % 4294967296).toNat

/-- Conversion of a `DWORD` to `int` (32-bit two's complement). -/
def toInt32 (d : Nat) : Int :=
  if d % 4294967296 < 2147483648 then ((d % 4294967296 : Nat) : Int)
  else ((d % 4294967296 : Nat) : Int) - 4294967296

/-- Value of a 16-bit pattern read as a `short`. -/
def toShort (w : Nat) : Int :=
  if w % 65536 < 32768 then ((w % 65536 : Nat) : Int) else ((w % 65536 : Nat) : Int) - 65536

/-- The Win32 `MulDiv(a, b, c)`: `a * b / c` computed without intermediate
overflow and rounded to the nearest integer (halves away from zero); `-1` when
`c = 0` or when the result does not fit a 32-bit `int`. -/
def MulDiv (a b c : Int) : Int :=
  if c = 0 then -1
  else
    let q : Int := ((2 * (a * b).natAbs + c.natAbs) / (2 * c.natAbs) : Nat)
    let r : Int := if (a * b < 0) = (c < 0) then q else -q
    if r < -2147483648 ∨ 2147483647 < r then -1 else r

/-- Source `lpwAlign`: `ul++; ul >>= 1; ul <<= 1` on a `ULONG64`. -/
def lpwAlign (lpIn : Nat) : Nat :=
  let ul := lpIn % 2 ^ 64
  let ul := (ul + 1) % 2 ^ 64
  let ul := ul >>> 1
  (ul <<< 1) % 2 ^ 64

/-! ## Dialog geometry (OpenEditField, lines 211-225 and 295-298) -/

/-- The dialog-unit quantities `OpenEditField` derives from the owner's client
rectangle `(right, bottom)` and the dialog base units. -/
structure DlgGeometry where
  mainWindowWidth : Nat
  mainWindowHeight : Nat
  editFieldWidth : Nat
  editFieldHeight : Nat
  /-- Field `lpdt->x`, 16-bit pattern. -/
  x : Nat
  /-- Field `lpdt->y`, 16-bit pattern. -/
  y : Nat
  /-- Field `lpdt->cx`, 16-bit pattern. -/
  cx : Nat
  /-- Field `lpdt->cy`, 16-bit pattern. -/
  cy : Nat
deriving DecidableEq, Repr

def dialogGeometry (right bottom : Int) (baseunitX baseunitY : Nat) : DlgGeometry :=
  let mainWindowWidth := toWORD (MulDiv right 4 baseunitX)
  let mainWindowHeight := toWORD (MulDiv bottom 8 baseunitY)
  let editFieldWidth := toWORD ((mainWindowWidth : Int) - EDITFIELD_MARGINX * 2)
  let editFieldHeight := EDITFIELD_HEIGHT
  { mainWindowWidth := mainWindowWidth
    mainWindowHeight := mainWindowHeight
    editFieldWidth := editFieldWidth
    editFieldHeight := editFieldHeight
    x := EDITFIELD_MARGINX
    y := toWORD ((mainWindowHeight : Int) - EDITFIELD_HEIGHT - EDITFIELD_MARGINY)
    cx := editFieldWidth
    cy := editFieldHeight }

/-- One `DLGITEMTEMPLATE` rectangle, 16-bit patterns of the `short` fields. -/
structure ItemRect where
  x : Nat
  y : Nat
  cx : Nat
  cy : Nat
deriving DecidableEq, Repr

/-- OK button rectangle (lines 240-241). -/
def okRect (editFieldWidth editFieldHeight : Nat) : ItemRect :=
  { x := toWORD (editFieldWidth / 16), y := toWORD (3 * editFieldHeight / 4)
    cx := toWORD (editFieldWidth / 4), cy := toWORD (editFieldHeight / 6) }

/-- Cancel button rectangle (lines 259-260). -/
def cancelRect (editFieldWidth editFieldHeight : Nat) : ItemRect :=
  { x := toWORD (11 * editFieldWidth / 16), y := toWORD (3 * editFieldHeight / 4)
    cx := toWORD (editFieldWidth / 4), cy := toWORD (editFieldHeight / 6) }

/-- Edit control rectangle (lines 278-279). -/
def editRect (editFieldWidth editFieldHeight : Nat) : ItemRect :=
  { x := toWORD (editFieldWidth / 16), y := toWORD (editFieldHeight / 8)
    cx := toWORD (7 * editFieldWidth / 8), cy := toWORD (3 * editFieldHeight / 8) }

/-- Horizontal dialog units to pixels as stored in the `WORD` statics
`editFieldX`, `editFieldCX` (lines 295-296); `d` is the `short` field read back. -/
def toPixelsX (baseunitX : Nat) (d : Nat) : Nat := toWORD (MulDiv (toShort d) baseunitX 4)

/-- Vertical dialog units to pixels as stored in `editFieldY`, `editFieldCY` (lines 297-298). -/
def toPixelsY (baseunitY : Nat) (d : Nat) : Nat := toWORD (MulDiv (toShort d) baseunitY 8)

/-- Horizontal pixels to dialog units, the ratio used for the owner width (line 216). -/
def toDialogX (baseunitX : Nat) (p : Int) : Nat := toWORD (MulDiv p 4 baseunitX)

/-- Vertical pixels to dialog units, the ratio used for the owner height (line 217). -/
def toDialogY (baseunitY : Nat) (p : Int) : Nat := toWORD (MulDiv p 8 baseunitY)

/-! ## The dialog template written by OpenEditField (lines 199-307) -/

/-- One store into the template block: `size` bytes at address `addr`. -/
structure Write where
  addr : Nat
  size : Nat
  val : Nat
deriving DecidableEq, Repr

/-- Consecutive `WORD` stores `*lpw++ = w` starting at `addr`. -/
def putWords (addr : Nat) : List Nat → List Write
  | [] => []
  | w :: ws => ⟨addr, 2, w⟩ :: putWords (addr + 2) ws

/-- The call `MultiByteToWideChar(CP_ACP, 0, s, -1, dst, cch)` for an ASCII
literal `s`: stores `s` and its terminator, returns the count of code units
stored, or `0` storing nothing when `cch` is too small. -/
def MultiByteToWideChar (s : List Nat) (cch : Nat) : Nat × List Nat :=
  if s.length + 1 ≤ cch then (s.length + 1, s ++ [0]) else (0, [])

/-- The copy loop `for (lpwsz = lpw; *lpwsz++ = *lpszMessage++;);`: the code
units stored, terminator included; `none` when the source vector holds no zero
code unit (the loop would read past its end). -/
def copyZ : List Nat → Option (List Nat)
  | [] => none
  | c :: cs => if c = 0 then some [0] else (copyZ cs).map (fun r => c :: r)

/-- Stores of the `DLGTEMPLATE` header at `lpdt` (lines 208-225). -/
def headerWrites (lpdt : Nat) (g : DlgGeometry) : List Write :=
  [ ⟨lpdt, 4, WS_POPUP ||| WS_BORDER ||| WS_SYSMENU ||| DS_MODALFRAME ||| WS_CAPTION⟩,
    ⟨lpdt + 8, 2, 3⟩,
    ⟨lpdt + 10, 2, g.x⟩, ⟨lpdt + 12, 2, g.y⟩, ⟨lpdt + 14, 2, g.cx⟩, ⟨lpdt + 16, 2, g.cy⟩ ]

/-- Stores of one `DLGITEMTEMPLATE` at `lpdit`. -/
def itemWrites (lpdit : Nat) (r : ItemRect) (id style : Nat) : List Write :=
  [ ⟨lpdit + 8, 2, r.x⟩, ⟨lpdit + 10, 2, r.y⟩, ⟨lpdit + 12, 2, r.cx⟩, ⟨lpdit + 14, 2, r.cy⟩,
    ⟨lpdit + 16, 2, id⟩, ⟨lpdit, 4, style⟩ ]

/-- Style of the edit control (lines 281-293). -/
def editStyle (editFieldMultiline editFieldSecure : Bool) (editFieldType : Int) : Nat :=
  let style := WS_CHILD ||| WS_VISIBLE ||| ES_LEFT
  let style := if editFieldMultiline then style ||| (ES_MULTILINE ||| ES_WANTRETURN ||| ES_AUTOVSCROLL) else style
  let style := if editFieldSecure then style ||| ES_PASSWORD else style
  if editFieldType = 4 then style ||| ES_NUMBER else style

/-- What `OpenEditField` has produced when it reaches `DialogBoxIndirect`. -/
structure Template where
  /-- Every store into the block, in program order. -/
  writes : List Write
  /-- Address of the OK button record. -/
  okItem : Nat
  /-- Address of the Cancel button record. -/
  cancelItem : Nat
  /-- Address of the edit control record. -/
  editItem : Nat
  /-- Final value of `lpw`, one past the last store. -/
  lpwEnd : Nat
  /-- Title array of the edit control, terminator dropped. -/
  caption : List Nat
  editFieldX : Nat
  editFieldY : Nat
  editFieldCX : Nat
  editFieldCY : Nat
deriving DecidableEq, Repr

def title_EditText : List Nat := [69, 100, 105, 116, 32, 116, 101, 120, 116]
def title_OK : List Nat := [79, 75]
def title_Cancel : List Nat := [67, 97, 110, 99, 101, 108]

/-- Source `OpenEditField` up to the call of `DialogBoxIndirect`: `lpdt` is the
address `GlobalLock` returned, `(right, bottom)` the owner's client rectangle,
`baseunitX/Y` the halves of `GetDialogBaseUnits()`. `none` when the stored
string has no terminator. -/
def OpenEditField (lpdt : Nat) (right bottom : Int) (baseunitX baseunitY : Nat)
    (editFieldMultiline editFieldSecure : Bool) (editFieldType : Int)
    (inputString : List Nat) : Option Template :=
  let g := dialogGeometry right bottom baseunitX baseunitY
  let w0 := headerWrites lpdt g
  let lpw := lpdt + SIZEOF_DLGTEMPLATE
  let w1 := putWords lpw [0, 0]
  let lpw := lpw + 2 * 2
  let m := MultiByteToWideChar title_EditText 50
  let w2 := putWords lpw m.2
  let nchar := 1 + m.1
  let lpw := lpw + 2 * nchar
  -- OK button
  let lpw := lpwAlign lpw
  let okItem := lpw
  let w3 := itemWrites okItem (okRect g.editFieldWidth g.editFieldHeight) IDOK
    (WS_CHILD ||| WS_VISIBLE ||| BS_DEFPUSHBUTTON)
  let lpw := okItem + SIZEOF_DLGITEMTEMPLATE
  let w4 := putWords lpw [0xFFFF, 0x0080]
  let lpw := lpw + 2 * 2
  let m := MultiByteToWideChar title_OK 50
  let w5 := putWords lpw m.2
  let nchar := 1 + m.1
  let lpw := lpw + 2 * nchar
  let w6 := putWords lpw [0]
  let lpw := lpw + 2
  -- Cancel button
  let lpw := lpwAlign lpw
  let cancelItem := lpw
  let w7 := itemWrites cancelItem (cancelRect g.editFieldWidth g.editFieldHeight) IDCANCEL
    (WS_CHILD ||| WS_VISIBLE ||| BS_PUSHBUTTON)
  let lpw := cancelItem + SIZEOF_DLGITEMTEMPLATE
  let w8 := putWords lpw [0xFFFF, 0x0080]
  let lpw := lpw + 2 * 2
  let m := MultiByteToWideChar title_Cancel 50
  let w9 := putWords lpw m.2
  let nchar := 1 + m.1
  let lpw := lpw + 2 * nchar
  let w10 := putWords lpw [0]
  let lpw := lpw + 2
  -- edit control
  let lpw := lpwAlign lpw
  let editItem := lpw
  let r := editRect g.editFieldWidth g.editFieldHeight
  let w11 := itemWrites editItem r ID_EDITTEXT
    (editStyle editFieldMultiline editFieldSecure editFieldType)
  let lpw := editItem + SIZEOF_DLGITEMTEMPLATE
  let w12 := putWords lpw [0xFFFF, 0x0081]
  let lpw := lpw + 2 * 2
  match copyZ inputString with
  | none => none
  | some copied =>
    let w13 := putWords lpw copied
    let lpw := lpw + 2 * copied.length
    let w14 := putWords lpw [0]
    let lpw := lpw + 2
    some
      { writes := w0 ++ w1 ++ w2 ++ w3 ++ w4 ++ w5 ++ w6 ++ w7 ++ w8 ++ w9 ++ w10 ++ w11 ++ w12
          ++ w13 ++ w14
        okItem := okItem
        cancelItem := cancelItem
        editItem := editItem
        lpwEnd := lpw
        caption := copied.dropLast
        editFieldX := toPixelsX baseunitX r.x
        editFieldY := toPixelsY baseunitY r.y
        editFieldCX := toPixelsX baseunitX r.cx
        editFieldCY := toPixelsY baseunitY r.cy }

/-- Every store of the template lies inside the `TEMPLATE_BYTES` block at `lpdt`. -/
def writesInside (lpdt : Nat) (t : Template) : Prop :=
  ∀ w ∈ t.writes, lpdt ≤ w.addr ∧ w.addr + w.size ≤ lpdt + TEMPLATE_BYTES

instance (lpdt : Nat) (t : Template) : Decidable (writesInside lpdt t) := by
  unfold writesInside; infer_instance

/-! ## Shared input state, the dialog thread and the exported accessors -/

/-- The two threads of the module: the host thread calling the exported
functions and the thread running the modal dialog. -/
inductive Thread where
  | host
  | dialog
deriving DecidableEq, Repr

/-- Ways in which a call does not return. -/
inductive Err where
  /-- A thread locks `softInputLock` while it is the owner (`std::mutex` is not recursive). -/
  | selfDeadlock
  /-- A thread locks `softInputLock` while the other thread owns it. -/
  | lockBusy
  /-- The function `GlobalAlloc` failed: `DialogStarted` is never called and `StartDialog` waits forever. -/
  | neverStarted
  /-- A store of `OpenEditField` falls outside the allocated block. -/
  | templateOverflow
  /-- The copy loop of `OpenEditField` found no terminator. -/
  | unterminated
deriving DecidableEq, Repr

/-- What the windowing toolkit hands to one run of `OpenEditField`. -/
structure Platform where
  /-- Result of `GlobalAlloc(GMEM_ZEROINIT, 2048)`, also the address `GlobalLock` gives; `0` on failure. -/
  hgbl : Nat
  /-- Owner client rectangle, `mainWindowRect.right`. -/
  right : Int
  /-- Owner client rectangle, `mainWindowRect.bottom`. -/
  bottom : Int
  /-- Low word of `GetDialogBaseUnits()`. -/
  baseunitX : Nat
  /-- High word of `GetDialogBaseUnits()`. -/
  baseunitY : Nat
  /-- Handle passed to `DialogProc` with `WM_INITDIALOG`. -/
  hDlg : Nat
  /-- Result of `GetDlgItem(hwnd, ID_EDITTEXT)`. -/
  hEdit : Nat
deriving DecidableEq, Repr

/-- The file-scope statics, the members of `editFieldThread`, and the part of
the live edit control the module reads back. -/
structure State where
  hWndMain : Nat
  hWndDlg : Nat
  hWndEdit : Nat
  editFieldType : Int
  editFieldHidden : Bool
  editFieldMultiline : Bool
  editFieldSecure : Bool
  editFieldX : Nat
  editFieldY : Nat
  editFieldCX : Nat
  editFieldCY : Nat
  inputString : List Nat
  editFieldCharacterLimit : Int
  editFieldSelectionStart : Nat
  editFieldSelectionEnd : Nat
  inputActive : Bool
  inputCanceled : Bool
  /-- Owner of `softInputLock`, `none` when it is free. -/
  softInputLock : Option Thread
  /-- Whether `m_Thread != NULL`. -/
  m_Thread : Bool
  m_DialogStarted : Bool
  /-- Window text of the edit control (meaningful while `hWndEdit` is not `NULL`). -/
  ctlText : List Nat
  /-- Text limit last sent to the control with `EM_SETLIMITTEXT`. -/
  ctlLimit : Int
  /-- Range last sent to the control with `EM_SETSEL`. -/
  ctlSel : Int × Int
  /-- Whether the control was last moved to the empty rectangle. -/
  ctlHidden : Bool
deriving DecidableEq, Repr

/-- State at program start: zero-initialised statics, empty vector. -/
def State.init : State :=
  { hWndMain := 0, hWndDlg := 0, hWndEdit := 0, editFieldType := 0
    editFieldHidden := false, editFieldMultiline := false, editFieldSecure := false
    editFieldX := 0, editFieldY := 0, editFieldCX := 0, editFieldCY := 0
    inputString := [], editFieldCharacterLimit := 0
    editFieldSelectionStart := 0, editFieldSelectionEnd := 0
    inputActive := false, inputCanceled := false
    softInputLock := none, m_Thread := false, m_DialogStarted := false
    ctlText := [], ctlLimit := 0, ctlSel := (0, 0), ctlHidden := false }

/-- Construction of a `std::lock_guard` on `softInputLock` by thread `t`. -/
def lock (t : Thread) (s : State) : Except Err State :=
  match s.softInputLock with
  | none => .ok { s with softInputLock := some t }
  | some o => if o = t then .error .selfDeadlock else .error .lockBusy

/-- Destruction of the `std::lock_guard`. -/
def unlock (s : State) : State := { s with softInputLock := none }

/-- The call `v.resize(n)` on a `std::vector<WCHAR>`. -/
def vecResize (v : List Nat) (n : Nat) : List Nat := v.take n ++ List.replicate (n - v.length) 0

/-- The call `memcpy(dst.data(), src, n * sizeof(WCHAR))`. -/
def memcpy (dst src : List Nat) (n : Nat) : List Nat := src.take n ++ dst.drop n

/-- The calls `GetWindowTextLength` then `GetWindowText(hWndEdit, buf, length)` into a
buffer of `length` code units: at most `length - 1` code units and a terminator. -/
def GetWindowText (ctlText : List Nat) (buf : List Nat) (length : Nat) : List Nat :=
  memcpy buf (ctlText.take (length - 1) ++ [0]) (min length (ctlText.length + 1))

/-- Source `SetCharacterLimit`. -/
def SetCharacterLimit (limit : Int) (s : State) : State :=
  if s.hWndEdit ≠ 0 then { s with ctlLimit := limit } else s

/-- Source `SetInputSelection`. -/
def SetInputSelection (start length : Int) (s : State) : State :=
  if s.hWndEdit ≠ 0 then { s with ctlSel := (start, start + length) } else s

/-- Source `HideInputField`. -/
def HideInputField (hidden : Bool) (s : State) : State :=
  if s.hWndEdit = 0 then s else { s with ctlHidden := hidden }

/-- Source `SetHideInputField`: `SendMessage(hWndDlg, WM_HIDEEDITFIELD, hidden, 0)`,
which `DialogProc` answers with `HideInputField`. -/
def SetHideInputField (hidden : Bool) (s : State) : State :=
  if s.hWndDlg ≠ 0 then HideInputField hidden s else s

/-- Source `HideSoftInput` (host thread). -/
def HideSoftInput (s : State) : Except Err State :=
  if s.hWndDlg ≠ 0 then do
    -- EndDialog(hWndDlg, 0)
    let s := { s with hWndDlg := 0, hWndEdit := 0 }
    let s ← lock .host s
    let s := { s with inputActive := false, inputCanceled := true }
    pure (unlock s)
  else pure s

/-- Source `EditFieldThreadHelper::StopAndDelete`. -/
def StopAndDelete (s : State) : Except Err State := do
  let s ← if s.m_Thread then HideSoftInput s else pure s
  pure { s with m_DialogStarted := false }

/-- Source `DialogProc`, case `WM_INITDIALOG` (dialog thread). -/
def DialogProc_WM_INITDIALOG (hwnd hEdit : Nat) (s : State) : State :=
  let s := { s with hWndDlg := hwnd, hWndEdit := hEdit }
  let s := SetCharacterLimit s.editFieldCharacterLimit s
  let s := SetInputSelection (toInt32 s.editFieldSelectionStart)
    (toInt32 (toDWORD ((s.editFieldSelectionEnd : Int) - s.editFieldSelectionStart))) s
  let s := SetHideInputField s.editFieldHidden s
  { s with m_DialogStarted := true }

/-- Source `EditFieldThreadHelper::StartDialog`, with the new thread run up to
the point where `DialogStarted` releases the caller: `OpenEditField` builds
the template, `DialogBoxIndirect` creates the dialog whose edit control shows
the template's title array, and `DialogProc` receives `WM_INITDIALOG`. -/
def StartDialog (p : Platform) (s : State) : Except Err State := do
  let s ← StopAndDelete s
  let s := { s with m_Thread := true }
  if p.hgbl = 0 then .error .neverStarted
  else
    match OpenEditField p.hgbl p.right p.bottom p.baseunitX p.baseunitY
        s.editFieldMultiline s.editFieldSecure s.editFieldType s.inputString with
    | none => .error .unterminated
    | some t =>
      if writesInside p.hgbl t then
        let s := { s with editFieldX := t.editFieldX, editFieldY := t.editFieldY
                          editFieldCX := t.editFieldCX, editFieldCY := t.editFieldCY
                          ctlText := t.caption }
        pure (DialogProc_WM_INITDIALOG p.hDlg p.hEdit s)
      else .error .templateOverflow

/-- Source `ShowSoftInput`; `initialText` carries its explicit `length`;
`correction` and `placeholder` are ignored by the source. -/
def ShowSoftInput (p : Platform) (hwnd : Nat) (initialText : List Nat) (type : Int)
    (multiline secure : Bool) (characterLimit : Int) (isInputFieldHidden : Bool)
    (selectionStart selectionLength : Int) (s : State) : Except Err State := do
  let s ← lock .host s
  let length := initialText.length
  let v := vecResize s.inputString (length + 1)
  let v := memcpy v initialText length
  let v := v.set length 0
  let s := { s with hWndMain := hwnd, editFieldType := type, inputString := v
                    editFieldCharacterLimit := characterLimit
                    editFieldMultiline := multiline, editFieldSecure := secure
                    editFieldSelectionStart := toDWORD selectionStart
                    editFieldSelectionEnd := toDWORD (toDWORD selectionStart + selectionLength)
                    editFieldHidden := isInputFieldHidden
                    inputActive := true, inputCanceled := false }
  let s ← StartDialog p s
  pure (unlock s)

/-- Source `SetSoftInputString`; `text` carries its explicit `length`. -/
def SetSoftInputString (text : List Nat) (s : State) : Except Err State := do
  let s ← lock .host s
  let length := text.length
  let v := vecResize s.inputString (length + 1)
  let v := memcpy v text length
  let v := v.set length 0
  let s := unlock { s with inputString := v }
  if s.hWndEdit ≠ 0 then
    -- SetWindowText(hWndEdit, inputString.data()) takes the text up to the terminator
    pure { s with ctlText := ((copyZ s.inputString).getD []).dropLast }
  else pure s

/-- Values `GetSoftInputString` hands back: the vector behind the returned
pointer, `*len` and `*updated`. -/
structure StringResult where
  data : List Nat
  len : Int
  updated : Bool
deriving DecidableEq, Repr

/-- Source `GetSoftInputString` with non-null `len` and `updated`. -/
def GetSoftInputString (s : State) : Except Err (StringResult × State) := do
  let (updated, s) ←
    if s.hWndEdit ≠ 0 then
      let length := s.ctlText.length + 1
      let newInputString := GetWindowText s.ctlText (List.replicate length 0) length
      if length ≠ s.inputString.length ∨ newInputString.take length ≠ s.inputString.take length then do
        let s ← lock .host s
        let v := vecResize s.inputString length
        let v := memcpy v newInputString length
        pure (true, unlock { s with inputString := v })
      else pure (false, s)
    else pure (false, s)
  pure ({ data := s.inputString, len := (s.inputString.length : Int) - 1, updated := updated }, s)

/-- Source `GetSoftInputState` with non-null arguments: `(*active, *canceled)`. -/
def GetSoftInputState (s : State) : Except Err (Bool × Bool) := do
  let s ← lock .host s
  pure (s.inputActive, s.inputCanceled)

/-- Source `UpdateInputString` (dialog thread). -/
def UpdateInputString (s : State) : Except Err State :=
  if s.hWndEdit ≠ 0 then do
    let s ← lock .dialog s
    let length := s.ctlText.length + 1
    let v := vecResize s.inputString length
    let v := GetWindowText s.ctlText v length
    pure (unlock { s with inputString := v })
  else pure s

/-- Source `DialogProc`, case `WM_COMMAND` with `LOWORD(wParam) = id` (dialog
thread); `IDOK` falls through into the `IDCANCEL` block. -/
def DialogProc_WM_COMMAND (id : Nat) (s : State) : Except Err State := do
  if id = IDOK ∨ id = IDCANCEL then
    let s ← if id = IDOK then UpdateInputString s else pure s
    let s ← lock .dialog s
    let s := { s with inputActive := false, inputCanceled := decide (id = IDCANCEL)
                      hWndEdit := 0, hWndDlg := 0 }
    -- EndDialog(hwnd, wParam)
    pure (unlock s)
  else pure s

/-- The three events that end a dialog. -/
inductive Terminal where
  | ok
  | cancel
  | hide
deriving DecidableEq, Repr

/-- The code run by each terminal event. -/
def Terminal.run : Terminal → State → Except Err State
  | .ok => DialogProc_WM_COMMAND IDOK
  | .cancel => DialogProc_WM_COMMAND IDCANCEL
  | .hide => HideSoftInput

/-- The stored text: the vector without its final terminator, as handed back by `GetSoftInputString`. -/
def State.text (s : State) : List Nat := s.inputString.dropLast

/-- The selection invariant of the data model. -/
def SelectionInv (s : State) : Prop :=
  s.editFieldSelectionStart ≤ s.editFieldSelectionEnd ∧ s.editFieldSelectionEnd ≤ s.text.length

instance (s : State) : Decidable (SelectionInv s) := by unfold SelectionInv; infer_instance

/-- A dialog is live: the thread exists and both window handles are set. -/
def Live (s : State) : Prop := s.m_Thread = true ∧ s.hWndDlg ≠ 0 ∧ s.hWndEdit ≠ 0

instance (s : State) : Decidable (Live s) := by unfold Live; infer_instance

/-! ## Concrete inputs -/

/-- A platform: block at address 4096, owner of 800 x 600 pixels, base units (8, 16). -/
def platformA : Platform :=
  { hgbl := 4096, right := 800, bottom := 600, baseunitX := 8, baseunitY := 16
    hDlg := 11, hEdit := 12 }

/-- The state `ShowSoftInput` leaves when called at program start on `platformA`
with owner 7, text "AB", limit 10 and an empty selection at 0: a live dialog. -/
def liveA : State :=
  { hWndMain := 7, hWndDlg := 11, hWndEdit := 12, editFieldType := 0
    editFieldHidden := false, editFieldMultiline := false, editFieldSecure := false
    editFieldX := 46, editFieldY := 24, editFieldCX := 664, editFieldCY := 74
    inputString := [65, 66, 0], editFieldCharacterLimit := 10
    editFieldSelectionStart := 0, editFieldSelectionEnd := 0
    inputActive := true, inputCanceled := false
    softInputLock := none, m_Thread := true, m_DialogStarted := true
    ctlText := [65, 66], ctlLimit := 10, ctlSel := (0, 0), ctlHidden := false }

end WindowsEditDialog

namespace WindowsEditDialog

/-! ## Machine-integer lemmas -/

theorem toWORD_natCast (n : Nat) (h : n < 65536) : toWORD (n : Int) = n := by
  unfold toWORD
  omega

theorem toWORD_lt (i : Int) : toWORD i < 65536 := by
  unfold toWORD
  omega

theorem toShort_of_lt (d : Nat) (h : d < 32768) : toShort d = d := by
  unfold toShort
  have : d % 65536 = d := Nat.mod_eq_of_lt (by omega)
  rw [this, if_pos h]

/-- For non-negative arguments and a result in range, `MulDiv` is the rounded quotient. -/
theorem MulDiv_natCast (a b c : Nat) (hc : 0 < c) (hr : (2 * (a * b) + c) / (2 * c) ≤ 2147483647) :
    MulDiv a b c = (((2 * (a * b) + c) / (2 * c) : Nat) : Int) := by
  unfold MulDiv
  have hc0 : (c : Int) ≠ 0 := by omega
  have hab : ¬ ((a : Int) * (b : Int) < 0) := by
    have : (0 : Int) ≤ (a : Int) * (b : Int) := by positivity
    omega
  have hcn : ¬ ((c : Int) < 0) := by omega
  have e1 : ((a : Int) * (b : Int)).natAbs = a * b := by
    rw [← Int.natCast_mul, Int.natAbs_ofNat]
  simp only [hc0, if_false, e1, Int.natAbs_ofNat, hab, hcn, if_true]
  generalize (2 * (a * b) + c) / (2 * c) = q at hr
  rw [if_neg]
  omega

/-! ## Geometry -/

theorem dialogGeometry_fits (right bottom : Int) (baseunitX baseunitY : Nat)
    (hw : 20 ≤ (dialogGeometry right bottom baseunitX baseunitY).mainWindowWidth)
    (hh : 120 ≤ (dialogGeometry right bottom baseunitX baseunitY).mainWindowHeight) :
    (dialogGeometry right bottom baseunitX baseunitY).x
        + (dialogGeometry right bottom baseunitX baseunitY).cx + 10
      = (dialogGeometry right bottom baseunitX baseunitY).mainWindowWidth
    ∧ (dialogGeometry right bottom baseunitX baseunitY).y
        + (dialogGeometry right bottom baseunitX baseunitY).cy + 20
      = (dialogGeometry right bottom baseunitX baseunitY).mainWindowHeight := by
  simp only [dialogGeometry, EDITFIELD_MARGINX, EDITFIELD_MARGINY, EDITFIELD_HEIGHT] at hw hh ⊢
  have h1 := toWORD_lt (MulDiv right 4 baseunitX)
  have h2 := toWORD_lt (MulDiv bottom 8 baseunitY)
  generalize toWORD (MulDiv right 4 baseunitX) = w at hw h1 ⊢
  generalize toWORD (MulDiv bottom 8 baseunitY) = h at hh h2 ⊢
  constructor
  · unfold toWORD; omega
  · unfold toWORD; omega

/-- Rounded quotient round trip: scaling by `b / k` and back by `k / b` is
exact once `b ≥ k` (used with `k = 4` and `k = 8`). -/
theorem round_trip_div (d b k : Nat) (hk : 0 < k) (hb : k ≤ b) :
    (2 * ((2 * (d * b) + k) / (2 * k) * k) + b) / (2 * b) = d := by
  have hb0 : 0 < b := by omega
  obtain ⟨p, hp⟩ : ∃ p, p = (2 * (d * b) + k) / (2 * k) := ⟨_, rfl⟩
  rw [← hp]
  have h1 : 2 * k * p ≤ 2 * (d * b) + k := by rw [hp]; exact Nat.mul_div_le _ _
  have h2 : 2 * (d * b) + k < 2 * k * p + 2 * k := by
    have := Nat.lt_mul_div_succ (2 * (d * b) + k) (show 0 < 2 * k by omega)
    rw [← hp] at this
    nlinarith
  apply Nat.div_eq_of_lt_le
  · nlinarith
  · rcases Nat.eq_or_lt_of_le hb with h | h
    · subst h
      have hpd : p = d := by
        have h3 : 2 * k * p ≤ 2 * k * d + k := by nlinarith
        have h4 : 2 * k * d + k < 2 * k * (p + 1) := by nlinarith
        have h5 : p ≤ d := by
          by_contra hc
          have : d + 1 ≤ p := by omega
          have : 2 * k * (d + 1) ≤ 2 * k * p := Nat.mul_le_mul_left _ this
          nlinarith
        have h6 : d ≤ p := by
          by_contra hc
          have : p + 1 ≤ d := by omega
          have : 2 * k * (p + 1) ≤ 2 * k * d := Nat.mul_le_mul_left _ this
          nlinarith
        omega
      rw [hpd]
      nlinarith
    · nlinarith

theorem toPixelsX_toDialogX (baseunitX d : Nat) (hb : 4 ≤ baseunitX) (hd : d < 32768)
    (hp : (d * baseunitX + 2) / 4 < 65536) :
    toDialogX baseunitX (toPixelsX baseunitX d) = d := by
  have e : (2 * (d * baseunitX) + 4) / (2 * 4) = (d * baseunitX + 2) / 4 := by omega
  have hrt := round_trip_div d baseunitX 4 (by omega) hb
  have m1 := MulDiv_natCast d baseunitX 4 (by omega) (by omega)
  obtain ⟨P, hP⟩ : ∃ P, P = (2 * (d * baseunitX) + 4) / (2 * 4) := ⟨_, rfl⟩
  rw [← hP] at hrt m1
  have hq : P < 65536 := by omega
  have m2 := MulDiv_natCast P 4 baseunitX (by omega) (by rw [hrt]; omega)
  rw [hrt] at m2
  unfold toDialogX toPixelsX
  rw [toShort_of_lt d hd]
  have m1' : MulDiv (d : Int) (baseunitX : Int) 4 = (P : Int) := by simpa using m1
  have m2' : MulDiv (P : Int) 4 (baseunitX : Int) = (d : Int) := by simpa using m2
  rw [m1', toWORD_natCast _ hq, m2', toWORD_natCast _ (by omega)]

theorem toPixelsY_toDialogY (baseunitY d : Nat) (hb : 8 ≤ baseunitY) (hd : d < 32768)
    (hp : (d * baseunitY + 4) / 8 < 65536) :
    toDialogY baseunitY (toPixelsY baseunitY d) = d := by
  have e : (2 * (d * baseunitY) + 8) / (2 * 8) = (d * baseunitY + 4) / 8 := by omega
  have hrt := round_trip_div d baseunitY 8 (by omega) hb
  have m1 := MulDiv_natCast d baseunitY 8 (by omega) (by omega)
  obtain ⟨P, hP⟩ : ∃ P, P = (2 * (d * baseunitY) + 8) / (2 * 8) := ⟨_, rfl⟩
  rw [← hP] at hrt m1
  have hq : P < 65536 := by omega
  have m2 := MulDiv_natCast P 8 baseunitY (by omega) (by rw [hrt]; omega)
  rw [hrt] at m2
  unfold toDialogY toPixelsY
  rw [toShort_of_lt d hd]
  have m1' : MulDiv (d : Int) (baseunitY : Int) 8 = (P : Int) := by simpa using m1
  have m2' : MulDiv (P : Int) 8 (baseunitY : Int) = (d : Int) := by simpa using m2
  rw [m1', toWORD_natCast _ hq, m2', toWORD_natCast _ (by omega)]

/-! ## Template layout -/

theorem lpwAlign_even (a : Nat) (h2 : a % 2 = 0) (hlt : a + 1 < 2 ^ 64) : lpwAlign a = a := by
  unfold lpwAlign
  simp only [Nat.shiftRight_eq_div_pow, Nat.shiftLeft_eq]
  norm_num at hlt ⊢
  omega

/-- On its own `lpwAlign` rounds up to an even address only: 46 stays 46. -/
theorem lpwAlign_rounds_to_even (a : Nat) (hlt : a + 1 < 2 ^ 64) :
    lpwAlign a = a + a % 2 ∧ lpwAlign 46 = 46 := by
  refine ⟨?_, by decide⟩
  unfold lpwAlign
  simp only [Nat.shiftRight_eq_div_pow, Nat.shiftLeft_eq]
  norm_num at hlt ⊢
  omega

theorem copyZ_append (pre rest : List Nat) (h : 0 ∉ pre) :
    copyZ (pre ++ 0 :: rest) = some (pre ++ [0]) := by
  induction pre with
  | nil => simp [copyZ]
  | cons c cs ih =>
    have hc : c ≠ 0 := fun e => h (by simp [e])
    have hcs : 0 ∉ cs := fun e => h (by simp [e])
    simp [copyZ, hc, ih hcs]

theorem copyZ_terminated (text rest : List Nat) :
    ∃ c, copyZ (text ++ 0 :: rest) = some c := by
  induction text with
  | nil => exact ⟨[0], by simp [copyZ]⟩
  | cons c cs ih =>
    obtain ⟨r, hr⟩ := ih
    by_cases hc : c = 0
    · exact ⟨[0], by simp [copyZ, hc]⟩
    · exact ⟨c :: r, by simp [copyZ, hc, hr]⟩

theorem putWords_bounds (ws : List Nat) (a : Nat) :
    ∀ w ∈ putWords a ws, a ≤ w.addr ∧ w.addr + w.size ≤ a + 2 * ws.length := by
  induction ws generalizing a with
  | nil => intro w hw; simp [putWords] at hw
  | cons x xs ih =>
    intro w hw
    simp only [putWords, List.mem_cons] at hw
    rcases hw with rfl | hw
    · simp only [List.length_cons]; omega
    · have := ih (a + 2) w hw
      simp only [List.length_cons]; omega

theorem headerWrites_bounds (a : Nat) (g : DlgGeometry) :
    ∀ w ∈ headerWrites a g, a ≤ w.addr ∧ w.addr + w.size ≤ a + 18 := by
  intro w hw
  simp only [headerWrites, List.mem_cons, List.mem_singleton, List.not_mem_nil, or_false] at hw
  rcases hw with rfl | rfl | rfl | rfl | rfl | rfl <;> constructor <;> simp only [] <;> omega

theorem itemWrites_bounds (a : Nat) (r : ItemRect) (id style : Nat) :
    ∀ w ∈ itemWrites a r id style, a ≤ w.addr ∧ w.addr + w.size ≤ a + 18 := by
  intro w hw
  simp only [itemWrites, List.mem_cons, List.mem_singleton, List.not_mem_nil, or_false] at hw
  rcases hw with rfl | rfl | rfl | rfl | rfl | rfl <;> constructor <;> simp only [] <;> omega

/-- Layout of the template: the three records sit at offsets 44, 76 and 116,
the template ends `140 + 2 * copied.length` bytes after its start, and its
stores stay below a bound `B` exactly when that end does. -/
theorem OpenEditField_layout (lpdt : Nat) (right bottom : Int) (baseunitX baseunitY : Nat)
    (ml sec : Bool) (type : Int) (inputString copied : List Nat)
    (h2 : lpdt % 2 = 0) (hlt : lpdt + TEMPLATE_BYTES ≤ 2 ^ 64)
    (hc : copyZ inputString = some copied) :
    ∃ t, OpenEditField lpdt right bottom baseunitX baseunitY ml sec type inputString = some t
      ∧ t.okItem = lpdt + 44 ∧ t.cancelItem = lpdt + 76 ∧ t.editItem = lpdt + 116
      ∧ t.lpwEnd = lpdt + 140 + 2 * copied.length
      ∧ t.caption = copied.dropLast
      ∧ (∀ B, (∀ w ∈ t.writes, lpdt ≤ w.addr ∧ w.addr + w.size ≤ lpdt + B)
            ↔ 140 + 2 * copied.length ≤ B) := by
  simp only [TEMPLATE_BYTES] at hlt ⊢
  have a1 : lpwAlign (lpdt + 44) = lpdt + 44 := lpwAlign_even _ (by omega) (by omega)
  have a2 : lpwAlign (lpdt + 76) = lpdt + 76 := lpwAlign_even _ (by omega) (by omega)
  have a3 : lpwAlign (lpdt + 116) = lpdt + 116 := lpwAlign_even _ (by omega) (by omega)
  have e1 : lpdt + 18 + 4 + 22 = lpdt + 44 := by omega
  have e2 : lpdt + 44 + 18 + 4 + 8 + 2 = lpdt + 76 := by omega
  have e3 : lpdt + 76 + 18 + 4 + 16 + 2 = lpdt + 116 := by omega
  simp only [OpenEditField, MultiByteToWideChar, title_EditText, title_OK, title_Cancel,
    SIZEOF_DLGTEMPLATE, SIZEOF_DLGITEMTEMPLATE, List.length_cons, List.length_nil, hc]
  norm_num
  simp only [e1, a1, e2, a2, e3, a3, true_and]
  refine ⟨by omega, ?_⟩
  intro B
  constructor
  · intro h
    have := h ⟨lpdt + 116 + 18 + 4 + 2 * copied.length, 2, 0⟩ (by simp [putWords])
    simp only [] at this
    omega
  · intro hle w hw
    rcases hw with h | h | h | h | h | h | h | h | h | h | h | h | h | h | h
    · have := headerWrites_bounds _ _ w h; omega
    · have := putWords_bounds _ _ w h; simp only [List.length_cons, List.length_nil] at this; omega
    · have := putWords_bounds _ _ w h; simp only [List.length_cons, List.length_nil] at this; omega
    · have := itemWrites_bounds _ _ _ _ w h; omega
    · have := putWords_bounds _ _ w h; simp only [List.length_cons, List.length_nil] at this; omega
    · have := putWords_bounds _ _ w h; simp only [List.length_cons, List.length_nil] at this; omega
    · have := putWords_bounds _ _ w h; simp only [List.length_cons, List.length_nil] at this; omega
    · have := itemWrites_bounds _ _ _ _ w h; omega
    · have := putWords_bounds _ _ w h; simp only [List.length_cons, List.length_nil] at this; omega
    · have := putWords_bounds _ _ w h; simp only [List.length_cons, List.length_nil] at this; omega
    · have := putWords_bounds _ _ w h; simp only [List.length_cons, List.length_nil] at this; omega
    · have := itemWrites_bounds _ _ _ _ w h; omega
    · have := putWords_bounds _ _ w h; simp only [List.length_cons, List.length_nil] at this; omega
    · have := putWords_bounds _ _ w h; omega
    · have := putWords_bounds _ _ w h; simp only [List.length_cons, List.length_nil] at this; omega

/-! ## Vector operations -/

theorem store_text (v text : List Nat) :
    (memcpy (vecResize v (text.length + 1)) text text.length).set text.length 0 = text ++ [0] := by
  have hl : (vecResize v (text.length + 1)).length = text.length + 1 := by
    simp only [vecResize, List.length_append, List.length_take, List.length_replicate]
    omega
  unfold memcpy
  rw [List.take_length]
  have hd : ((vecResize v (text.length + 1)).drop text.length).length = 1 := by
    rw [List.length_drop, hl]; omega
  obtain ⟨x, hx⟩ := List.length_eq_one.mp hd
  rw [hx]
  simp

theorem GetWindowText_full (ctlText buf : List Nat) (hb : buf.length = ctlText.length + 1) :
    GetWindowText ctlText buf (ctlText.length + 1) = ctlText ++ [0] := by
  unfold GetWindowText memcpy
  have h1 : ctlText.length + 1 - 1 = ctlText.length := by omega
  rw [h1, List.take_length, Nat.min_self]
  have h2 : (ctlText ++ [0]).length = ctlText.length + 1 := by simp
  rw [← h2, List.take_length, h2, List.drop_eq_nil_of_le (by omega)]
  simp

theorem vecResize_length (v : List Nat) (n : Nat) : (vecResize v n).length = n := by
  simp only [vecResize, List.length_append, List.length_take, List.length_replicate]
  omega

/-! ## Lock and dialog start -/

theorem HideSoftInput_noDialog (s : State) (h : s.hWndDlg = 0) : HideSoftInput s = .ok s := by
  simp [HideSoftInput, h, pure, Except.pure]

theorem StopAndDelete_idle (s : State) (h : s.m_Thread = false ∨ s.hWndDlg = 0) :
    StopAndDelete s = .ok { s with m_DialogStarted := false } := by
  unfold StopAndDelete
  rcases h with h | h
  · simp [h, pure, Except.pure, bind, Except.bind]
  · by_cases ht : s.m_Thread = true
    · simp [ht, HideSoftInput_noDialog s h, pure, Except.pure, bind, Except.bind]
    · simp [ht, pure, Except.pure, bind, Except.bind]

theorem DialogProc_WM_INITDIALOG_fields (hwnd hEdit : Nat) (s : State) :
    (DialogProc_WM_INITDIALOG hwnd hEdit s).hWndDlg = hwnd
    ∧ (DialogProc_WM_INITDIALOG hwnd hEdit s).hWndEdit = hEdit
    ∧ (DialogProc_WM_INITDIALOG hwnd hEdit s).inputString = s.inputString
    ∧ (DialogProc_WM_INITDIALOG hwnd hEdit s).ctlText = s.ctlText
    ∧ (DialogProc_WM_INITDIALOG hwnd hEdit s).inputActive = s.inputActive
    ∧ (DialogProc_WM_INITDIALOG hwnd hEdit s).inputCanceled = s.inputCanceled
    ∧ (DialogProc_WM_INITDIALOG hwnd hEdit s).softInputLock = s.softInputLock
    ∧ (DialogProc_WM_INITDIALOG hwnd hEdit s).editFieldSelectionStart = s.editFieldSelectionStart
    ∧ (DialogProc_WM_INITDIALOG hwnd hEdit s).editFieldSelectionEnd = s.editFieldSelectionEnd
    ∧ (DialogProc_WM_INITDIALOG hwnd hEdit s).m_Thread = s.m_Thread := by
  unfold DialogProc_WM_INITDIALOG SetCharacterLimit SetInputSelection SetHideInputField
    HideInputField
  by_cases h1 : hEdit = 0 <;> by_cases h2 : hwnd = 0 <;> simp [h1, h2]

/-- Outcome of `StartDialog` when `StopAndDelete` finds nothing to stop. -/
theorem StartDialog_idle (p : Platform) (s : State) (t : Template)
    (hidle : s.m_Thread = false ∨ s.hWndDlg = 0) (hp : p.hgbl ≠ 0)
    (ht : OpenEditField p.hgbl p.right p.bottom p.baseunitX p.baseunitY
        s.editFieldMultiline s.editFieldSecure s.editFieldType s.inputString = some t)
    (hin : writesInside p.hgbl t) :
    StartDialog p s = .ok (DialogProc_WM_INITDIALOG p.hDlg p.hEdit
      { s with m_DialogStarted := false, m_Thread := true
               editFieldX := t.editFieldX, editFieldY := t.editFieldY
               editFieldCX := t.editFieldCX, editFieldCY := t.editFieldCY
               ctlText := t.caption }) := by
  unfold StartDialog
  rw [StopAndDelete_idle s hidle]
  simp only [bind, Except.bind, hp, if_false, ht, hin, if_true, pure, Except.pure]

/-- Outcome of `ShowSoftInput` from a state without a live dialog. -/
theorem ShowSoftInput_idle (p : Platform) (hwnd : Nat) (text : List Nat) (type : Int)
    (ml sec : Bool) (limit : Int) (hidden : Bool) (selStart selLen : Int) (s : State)
    (copied : List Nat)
    (hl : s.softInputLock = none) (hidle : s.m_Thread = false ∨ s.hWndDlg = 0)
    (hp : p.hgbl ≠ 0) (h2 : p.hgbl % 2 = 0) (hlt : p.hgbl + TEMPLATE_BYTES ≤ 2 ^ 64)
    (hc : copyZ (text ++ [0]) = some copied)
    (hfit : 140 + 2 * copied.length ≤ TEMPLATE_BYTES) :
    ∃ s', ShowSoftInput p hwnd text type ml sec limit hidden selStart selLen s = .ok s'
      ∧ s'.inputString = text ++ [0] ∧ s'.ctlText = copied.dropLast
      ∧ s'.hWndDlg = p.hDlg ∧ s'.hWndEdit = p.hEdit
      ∧ s'.inputActive = true ∧ s'.inputCanceled = false ∧ s'.softInputLock = none
      ∧ s'.editFieldSelectionStart = toDWORD selStart
      ∧ s'.editFieldSelectionEnd = toDWORD (toDWORD selStart + selLen)
      ∧ s'.m_Thread = true := by
  obtain ⟨t, ht, -, -, -, -, hcap, hin⟩ := OpenEditField_layout p.hgbl p.right p.bottom
    p.baseunitX p.baseunitY ml sec type (text ++ [0]) copied h2 hlt hc
  have hin' : writesInside p.hgbl t := (hin TEMPLATE_BYTES).mpr hfit
  unfold ShowSoftInput lock
  rw [hl]
  simp only [bind, Except.bind, store_text]
  rw [StartDialog_idle p _ t (by simpa using hidle) hp (by simpa using ht) hin']
  simp only [pure, Except.pure, unlock]
  refine ⟨_, rfl, ?_⟩
  have hf := DialogProc_WM_INITDIALOG_fields p.hDlg p.hEdit
    { hWndMain := hwnd, hWndDlg := s.hWndDlg, hWndEdit := s.hWndEdit, editFieldType := type
      editFieldHidden := hidden, editFieldMultiline := ml, editFieldSecure := sec
      editFieldX := t.editFieldX, editFieldY := t.editFieldY
      editFieldCX := t.editFieldCX, editFieldCY := t.editFieldCY
      inputString := text ++ [0], editFieldCharacterLimit := limit
      editFieldSelectionStart := toDWORD selStart
      editFieldSelectionEnd := toDWORD (toDWORD selStart + selLen)
      inputActive := true, inputCanceled := false
      softInputLock := some Thread.host, m_Thread := true, m_DialogStarted := false
      ctlText := t.caption, ctlLimit := s.ctlLimit, ctlSel := s.ctlSel, ctlHidden := s.ctlHidden }
  obtain ⟨f1, f2, f3, f4, f5, f6, f7, f8, f9, f10⟩ := hf
  simp only [] at f1 f2 f3 f4 f5 f6 f7 f8 f9 f10
  refine ⟨f3, ?_, f1, f2, f5, f6, rfl, f8, f9, f10⟩
  rw [← hcap]; exact f4

/-! ## Claims on the geometry and the template -/

/-- C8 (as stated, refuted): with base units (2, 4) and an owner of 100 x 100
pixels the edit control gets `x = 11` and `cy = 37` dialog units; `x` becomes 6
pixels and converts back to 12, `cy` becomes 19 pixels and converts back to 38. -/
theorem C8_round_trip_fails_small_base_units :
    (editRect (dialogGeometry 100 100 2 4).editFieldWidth
        (dialogGeometry 100 100 2 4).editFieldHeight).x = 11
    ∧ toPixelsX 2 11 = 6 ∧ toDialogX 2 6 = 12
    ∧ (editRect (dialogGeometry 100 100 2 4).editFieldWidth
        (dialogGeometry 100 100 2 4).editFieldHeight).cy = 37
    ∧ toPixelsY 4 37 = 19 ∧ toDialogY 4 19 = 38 := by
  decide

/-- C8 (amended): for base units `baseunitX ≥ 4`, `baseunitY ≥ 8` and a
coordinate `d` that is a non-negative `short` whose pixel value fits the
16-bit static, dialog units to pixels and back yields `d` again, horizontally
and vertically. -/
theorem C8_round_trip (baseunitX baseunitY d : Nat) (hbx : 4 ≤ baseunitX) (hby : 8 ≤ baseunitY)
    (hd : d < 32768) (hpx : (d * baseunitX + 2) / 4 < 65536)
    (hpy : (d * baseunitY + 4) / 8 < 65536) :
    toDialogX baseunitX (toPixelsX baseunitX d) = d
    ∧ toDialogY baseunitY (toPixelsY baseunitY d) = d :=
  ⟨toPixelsX_toDialogX baseunitX d hbx hd hpx, toPixelsY_toDialogY baseunitY d hby hd hpy⟩

theorem C8_round_trip_witness :
    toDialogX 8 (toPixelsX 8 23) = 23 ∧ toDialogY 16 (toPixelsY 16 23) = 23 :=
  C8_round_trip 8 16 23 (by decide) (by decide) (by decide) (by decide) (by decide)

/-- The three control records of the template start at byte offsets 44, 76
and 116 from the template start, multiples of 4, for every stored text and
every even block address. -/
theorem OpenEditField_record_offsets (lpdt : Nat) (right bottom : Int)
    (baseunitX baseunitY : Nat) (ml sec : Bool) (type : Int) (text rest : List Nat)
    (h2 : lpdt % 2 = 0) (hlt : lpdt + TEMPLATE_BYTES ≤ 2 ^ 64) :
    ∃ t, OpenEditField lpdt right bottom baseunitX baseunitY ml sec type (text ++ 0 :: rest)
        = some t
      ∧ t.okItem = lpdt + 44 ∧ t.cancelItem = lpdt + 76 ∧ t.editItem = lpdt + 116 := by
  obtain ⟨c, hc⟩ := copyZ_terminated text rest
  obtain ⟨t, ht, h1, h3, h4, -⟩ := OpenEditField_layout lpdt right bottom baseunitX baseunitY
    ml sec type _ c h2 hlt hc
  exact ⟨t, ht, h1, h3, h4⟩

/-- C10: for every stored text whose first zero code unit is at index `n`
(here `n = pre.length`), the template ends `142 + 2 * n` bytes after its start,
its stores stay below a bound `B` exactly when `142 + 2 * n ≤ B`, and they stay
inside the 2048-byte block if and only if `n ≤ 953`. -/
theorem C10_template_extent (lpdt : Nat) (right bottom : Int)
    (baseunitX baseunitY : Nat) (ml sec : Bool) (type : Int) (pre rest : List Nat)
    (h0 : 0 ∉ pre) (h2 : lpdt % 2 = 0) (hlt : lpdt + TEMPLATE_BYTES ≤ 2 ^ 64) :
    ∃ t, OpenEditField lpdt right bottom baseunitX baseunitY ml sec type (pre ++ 0 :: rest)
        = some t
      ∧ t.lpwEnd = lpdt + (142 + 2 * pre.length)
      ∧ (∀ B, (∀ w ∈ t.writes, lpdt ≤ w.addr ∧ w.addr + w.size ≤ lpdt + B)
            ↔ 142 + 2 * pre.length ≤ B)
      ∧ (writesInside lpdt t ↔ pre.length ≤ 953) := by
  obtain ⟨t, ht, -, -, -, he, -, hB⟩ := OpenEditField_layout lpdt right bottom baseunitX
    baseunitY ml sec type _ (pre ++ [0]) h2 hlt (copyZ_append pre rest h0)
  have hlen : (pre ++ [0]).length = pre.length + 1 := by simp
  rw [hlen] at he hB
  refine ⟨t, ht, by omega, ?_, ?_⟩
  · intro B
    rw [hB B]
    omega
  · unfold writesInside
    rw [hB TEMPLATE_BYTES]
    simp only [TEMPLATE_BYTES]
    omega

theorem C10_template_extent_witness :
    ∃ t, OpenEditField 4096 800 600 8 16 false false 0 ([65, 66] ++ 0 :: [7]) = some t
      ∧ t.lpwEnd = 4096 + (142 + 2 * [65, 66].length)
      ∧ (∀ B, (∀ w ∈ t.writes, 4096 ≤ w.addr ∧ w.addr + w.size ≤ 4096 + B)
            ↔ 142 + 2 * [65, 66].length ≤ B)
      ∧ (writesInside 4096 t ↔ [65, 66].length ≤ 953) :=
  C10_template_extent 4096 800 600 8 16 false false 0 [65, 66] [7] (by decide) (by decide)
    (by decide)

/-! ## Reading and writing the text -/

theorem memcpy_full (dst src : List Nat) (h : dst.length = src.length) :
    memcpy dst src src.length = src := by
  unfold memcpy
  rw [List.take_length, List.drop_eq_nil_of_le (by omega)]
  simp

theorem pulled_text (ctlText : List Nat) :
    GetWindowText ctlText (List.replicate (ctlText.length + 1) 0) (ctlText.length + 1)
      = ctlText ++ [0] :=
  GetWindowText_full ctlText _ (by simp)

/-- With the stored vector equal to the control text plus terminator,
`GetSoftInputString` reports no update and leaves the state alone. -/
theorem GetSoftInputString_same (s : State) (h : s.inputString = s.ctlText ++ [0]) :
    GetSoftInputString s
      = .ok ({ data := s.ctlText ++ [0], len := s.ctlText.length, updated := false }, s) := by
  unfold GetSoftInputString
  have hlen : s.inputString.length = s.ctlText.length + 1 := by rw [h]; simp
  by_cases he : s.hWndEdit = 0
  · simp [he, bind, Except.bind, pure, Except.pure, h]
  · simp [he, bind, Except.bind, pure, Except.pure, pulled_text, hlen]
    simp [h]

/-- With a live edit control whose text differs from the stored vector,
`GetSoftInputString` stores the control text and reports an update. -/
theorem GetSoftInputString_changed (s : State) (he : s.hWndEdit ≠ 0)
    (hl : s.softInputLock = none) (h : s.inputString ≠ s.ctlText ++ [0]) :
    GetSoftInputString s
      = .ok ({ data := s.ctlText ++ [0], len := s.ctlText.length, updated := true },
             { s with inputString := s.ctlText ++ [0] }) := by
  have hcond : s.ctlText.length + 1 ≠ s.inputString.length
      ∨ (s.ctlText ++ [0]).take (s.ctlText.length + 1)
          ≠ s.inputString.take (s.ctlText.length + 1) := by
    by_cases hlen : s.ctlText.length + 1 = s.inputString.length
    · right
      have e1 : (s.ctlText ++ [0]).length = s.ctlText.length + 1 := by simp
      rw [← e1, List.take_length, e1, hlen, List.take_length]
      exact fun e => h e.symm
    · left; exact hlen
  have hm : memcpy (vecResize s.inputString (s.ctlText.length + 1)) (s.ctlText ++ [0])
      (s.ctlText.length + 1) = s.ctlText ++ [0] := by
    have := memcpy_full (vecResize s.inputString (s.ctlText.length + 1)) (s.ctlText ++ [0])
      (by rw [vecResize_length]; simp)
    simpa using this
  unfold GetSoftInputString
  simp only [pulled_text, he, ne_eq, not_false_eq_true, if_true, hcond, lock, hl, bind,
    Except.bind, pure, Except.pure, unlock, hm]
  cases s
  simp only [] at hl
  subst hl
  simp

/-! ## Terminal events -/

theorem UpdateInputString_live (s : State) (he : s.hWndEdit ≠ 0) (hl : s.softInputLock = none) :
    UpdateInputString s = .ok { s with inputString := s.ctlText ++ [0] } := by
  have hg : GetWindowText s.ctlText (vecResize s.inputString (s.ctlText.length + 1))
      (s.ctlText.length + 1) = s.ctlText ++ [0] :=
    GetWindowText_full _ _ (vecResize_length _ _)
  unfold UpdateInputString
  simp only [he, ne_eq, not_false_eq_true, if_true, lock, hl, bind, Except.bind, pure,
    Except.pure, unlock, hg]

theorem DialogProc_IDOK (s : State) (hl : s.softInputLock = none) :
    DialogProc_WM_COMMAND IDOK s
      = .ok { s with inputString := if s.hWndEdit ≠ 0 then s.ctlText ++ [0] else s.inputString
                     inputActive := false, inputCanceled := false
                     hWndEdit := 0, hWndDlg := 0 } := by
  unfold DialogProc_WM_COMMAND
  by_cases he : s.hWndEdit = 0
  · simp only [IDOK, IDCANCEL, UpdateInputString, he, lock, hl, bind, Except.bind, pure,
      Except.pure, unlock]
    cases s
    simp only [] at hl
    subst hl
    simp
  · simp only [true_or, if_true, UpdateInputString_live s he hl, bind, Except.bind, lock, hl,
      pure, Except.pure, unlock, he, ne_eq, not_false_eq_true]
    simp [IDOK, IDCANCEL]

theorem DialogProc_IDCANCEL (s : State) (hl : s.softInputLock = none) :
    DialogProc_WM_COMMAND IDCANCEL s
      = .ok { s with inputActive := false, inputCanceled := true, hWndEdit := 0, hWndDlg := 0 } := by
  unfold DialogProc_WM_COMMAND
  simp only [IDOK, IDCANCEL, lock, hl, bind, Except.bind, pure, Except.pure, unlock]
  all_goals
    cases s
    simp only [] at hl
    subst hl
    simp

theorem HideSoftInput_live (s : State) (hd : s.hWndDlg ≠ 0) (hl : s.softInputLock = none) :
    HideSoftInput s
      = .ok { s with inputActive := false, inputCanceled := true, hWndEdit := 0, hWndDlg := 0 } := by
  unfold HideSoftInput
  simp only [hd, ne_eq, not_false_eq_true, if_true, lock, hl, bind, Except.bind, pure,
    Except.pure, unlock]

/-! ## Claims on the shared state -/

/-- The live state `liveA` is what a first `ShowSoftInput` at program start returns. -/
theorem liveA_reached :
    ShowSoftInput platformA 7 [65, 66] 0 false false 10 false 0 0 State.init = .ok liveA :=
  rfl

/-- C1 (code evaluated at the failing input): on the live state `liveA`, left
by a first `ShowSoftInput`, a second `ShowSoftInput` does not return: it stops
in `HideSoftInput` locking `softInputLock` a second time. And the remainder of
`ShowSoftInput` after its flag stores, `StartDialog`, run on that state with
`inputActive = true`, `inputCanceled = false` and the lock free, returns with
`GetSoftInputState` reporting `(false, true)`. -/
theorem C1_second_show_loses_active_flag :
    liveA.inputActive = true ∧ liveA.inputCanceled = false
    ∧ ShowSoftInput platformA 7 [67] 0 false false 10 false 0 0 liveA = .error .selfDeadlock
    ∧ (StartDialog platformA liveA >>= GetSoftInputState) = .ok (false, true) :=
  ⟨rfl, rfl, rfl, rfl⟩

/-- C2 (code evaluated on every live state): when the thread exists and the dialog handle is
set, `ShowSoftInput`, holding `softInputLock`, reaches `HideSoftInput` through
`StartDialog` and `StopAndDelete`, which locks `softInputLock` again on the
same thread. -/
theorem C2_show_on_live_dialog_relocks (p : Platform) (hwnd : Nat) (text : List Nat)
    (type : Int) (ml sec : Bool) (limit : Int) (hidden : Bool) (selStart selLen : Int)
    (s : State) (hl : s.softInputLock = none) (ht : s.m_Thread = true) (hd : s.hWndDlg ≠ 0) :
    ShowSoftInput p hwnd text type ml sec limit hidden selStart selLen s
      = .error .selfDeadlock := by
  unfold ShowSoftInput lock
  rw [hl]
  simp [bind, Except.bind, StartDialog, StopAndDelete, HideSoftInput, lock, ht, hd]

theorem C2_show_on_live_dialog_relocks_witness :
    ShowSoftInput platformA 7 [67, 68] 0 false false 10 false 0 0 liveA
      = .error .selfDeadlock :=
  C2_show_on_live_dialog_relocks platformA 7 [67, 68] 0 false false 10 false 0 0 liveA rfl rfl
    (by decide)

/-- C3 (as stated, refuted): from program start, `ShowSoftInput` with the
three code units `[65, 0, 66]` followed by `GetSoftInputString` yields the text
`[65]` of length 1 with `updated = true`, not the text passed in. -/
theorem C3_embedded_zero_is_reported_as_update :
    (ShowSoftInput platformA 7 [65, 0, 66] 0 false false 10 false 0 0 State.init
        >>= GetSoftInputString).map Prod.fst
      = .ok { data := [65, 0], len := 1, updated := true } :=
  rfl

/-- C3 (amended): from a state without a live dialog and with the lock free,
on a platform where the block is allocated, for every initial text without a
zero code unit and of at most 953 code units, `ShowSoftInput` returns and an
immediate `GetSoftInputString` returns that text, its length, and
`updated = false`. -/
theorem C3_show_then_get_returns_initial_text (p : Platform) (hwnd : Nat) (text : List Nat)
    (type : Int) (ml sec : Bool) (limit : Int) (hidden : Bool) (selStart selLen : Int)
    (s : State) (hl : s.softInputLock = none) (hidle : s.m_Thread = false ∨ s.hWndDlg = 0)
    (hp : p.hgbl ≠ 0) (h2 : p.hgbl % 2 = 0) (hlt : p.hgbl + TEMPLATE_BYTES ≤ 2 ^ 64)
    (h0 : 0 ∉ text) (hlen : text.length ≤ 953) :
    ∃ s1, ShowSoftInput p hwnd text type ml sec limit hidden selStart selLen s = .ok s1
      ∧ GetSoftInputString s1
          = .ok ({ data := text ++ [0], len := text.length, updated := false }, s1) := by
  have hc : copyZ (text ++ [0]) = some (text ++ [0]) := copyZ_append text [] h0
  obtain ⟨s1, hs, hstr, hctl, -⟩ := ShowSoftInput_idle p hwnd text type ml sec limit hidden
    selStart selLen s (text ++ [0]) hl hidle hp h2 hlt hc (by
      simp only [TEMPLATE_BYTES, List.length_append, List.length_cons, List.length_nil]; omega)
  have hctl' : s1.ctlText = text := by rw [hctl]; simp
  refine ⟨s1, hs, ?_⟩
  have := GetSoftInputString_same s1 (by rw [hstr, hctl'])
  rw [hctl'] at this
  exact this

theorem C3_show_then_get_returns_initial_text_witness :
    ∃ s1, ShowSoftInput platformA 7 [65, 66] 0 false false 10 false 0 0 State.init = .ok s1
      ∧ GetSoftInputString s1
          = .ok ({ data := [65, 66] ++ [0], len := [65, 66].length, updated := false }, s1) :=
  C3_show_then_get_returns_initial_text platformA 7 [65, 66] 0 false false 10 false 0 0
    State.init rfl (Or.inl rfl) (by decide) (by decide) (by decide) (by decide) (by decide)

/-- C4: with a live edit control and the lock free, for every stored text and
every control text `newText` different from it, `GetSoftInputString` returns
`newText` with its length and `updated = true` and stores it; a second call
with the control unchanged returns `newText` with `updated = false`. -/
theorem C4_get_reports_edit_once (s : State) (newText : List Nat)
    (he : s.hWndEdit ≠ 0) (hl : s.softInputLock = none)
    (hctl : s.ctlText = newText) (hne : s.text ≠ newText) :
    ∃ s1, GetSoftInputString s
        = .ok ({ data := newText ++ [0], len := newText.length, updated := true }, s1)
      ∧ s1.text = newText ∧ s1.ctlText = newText
      ∧ GetSoftInputString s1
        = .ok ({ data := newText ++ [0], len := newText.length, updated := false }, s1) := by
  subst hctl
  have hv : s.inputString ≠ s.ctlText ++ [0] := by
    intro e
    apply hne
    unfold State.text
    rw [e]
    simp
  refine ⟨{ s with inputString := s.ctlText ++ [0] }, GetSoftInputString_changed s he hl hv,
    by simp [State.text], rfl, ?_⟩
  exact GetSoftInputString_same { s with inputString := s.ctlText ++ [0] } rfl

theorem C4_get_reports_edit_once_witness :
    ∃ s1, GetSoftInputString { liveA with ctlText := [65, 66, 67] }
        = .ok ({ data := [65, 66, 67] ++ [0], len := [65, 66, 67].length, updated := true }, s1)
      ∧ s1.text = [65, 66, 67] ∧ s1.ctlText = [65, 66, 67]
      ∧ GetSoftInputString s1
        = .ok ({ data := [65, 66, 67] ++ [0], len := [65, 66, 67].length, updated := false }, s1) :=
  C4_get_reports_edit_once { liveA with ctlText := [65, 66, 67] } [65, 66, 67] (by decide) rfl rfl
    (by decide)

/-- C5: on a live dialog with the lock free, each terminal event (OK command,
Cancel command, `HideSoftInput`) returns leaving both window handles null and
`inputActive = false`, sets `inputCanceled = true` exactly when the event is
not OK, stores the edit control's text on OK and leaves the stored vector
unchanged on Cancel and hide. -/
theorem C5_terminal_events (ev : Terminal) (s : State) (hl : s.softInputLock = none)
    (hd : s.hWndDlg ≠ 0) (he : s.hWndEdit ≠ 0) :
    ∃ s1, ev.run s = .ok s1
      ∧ s1.hWndDlg = 0 ∧ s1.hWndEdit = 0 ∧ s1.inputActive = false
      ∧ (s1.inputCanceled = true ↔ ev ≠ Terminal.ok)
      ∧ (ev = Terminal.ok → s1.inputString = s.ctlText ++ [0] ∧ s1.text = s.ctlText)
      ∧ (ev ≠ Terminal.ok → s1.inputString = s.inputString ∧ s1.text = s.text) := by
  cases ev with
  | ok =>
    refine ⟨_, DialogProc_IDOK s hl, rfl, rfl, rfl, by simp, ?_, by simp⟩
    intro _
    simp [State.text, he]
  | cancel =>
    exact ⟨_, DialogProc_IDCANCEL s hl, rfl, rfl, rfl, by simp, by simp, fun _ => ⟨rfl, rfl⟩⟩
  | hide =>
    exact ⟨_, HideSoftInput_live s hd hl, rfl, rfl, rfl, by simp, by simp, fun _ => ⟨rfl, rfl⟩⟩

theorem C5_terminal_events_witness :
    ∃ s1, Terminal.ok.run { liveA with ctlText := [72, 105] } = .ok s1
      ∧ s1.hWndDlg = 0 ∧ s1.hWndEdit = 0 ∧ s1.inputActive = false
      ∧ (s1.inputCanceled = true ↔ Terminal.ok ≠ Terminal.ok)
      ∧ (Terminal.ok = Terminal.ok → s1.inputString = [72, 105] ++ [0] ∧ s1.text = [72, 105])
      ∧ (Terminal.ok ≠ Terminal.ok → s1.inputString = [65, 66, 0] ∧ s1.text = [65, 66]) :=
  C5_terminal_events Terminal.ok { liveA with ctlText := [72, 105] } rfl (by decide) (by decide)

/-! ## Selection invariant -/

theorem copyZ_length_le (v c : List Nat) (h : copyZ v = some c) : c.length ≤ v.length := by
  induction v generalizing c with
  | nil => simp [copyZ] at h
  | cons x xs ih =>
    unfold copyZ at h
    by_cases hx : x = 0
    · simp [hx] at h
      subst h
      simp
    · simp only [hx, if_false, Option.map_eq_some'] at h
      obtain ⟨r, hr, rfl⟩ := h
      have := ih r hr
      simp only [List.length_cons]
      omega

theorem SetSoftInputString_fields (text : List Nat) (s : State) (hl : s.softInputLock = none) :
    ∃ s1, SetSoftInputString text s = .ok s1 ∧ s1.inputString = text ++ [0]
      ∧ s1.editFieldSelectionStart = s.editFieldSelectionStart
      ∧ s1.editFieldSelectionEnd = s.editFieldSelectionEnd := by
  unfold SetSoftInputString lock
  rw [hl]
  simp only [bind, Except.bind, store_text, unlock, pure, Except.pure]
  by_cases he : s.hWndEdit = 0
  · simp [he]
  · simp [he]

theorem GetSoftInputString_noEdit (s : State) (he : s.hWndEdit = 0) :
    GetSoftInputString s
      = .ok ({ data := s.inputString, len := (s.inputString.length : Int) - 1, updated := false }, s) := by
  unfold GetSoftInputString
  simp [he, bind, Except.bind, pure, Except.pure]

/-- C7 (as stated, refuted): the invariant holds at program start and fails
after `ShowSoftInput` with text "A", `selectionStart = 0`, `selectionLength = 5`
(end 5 beyond length 1); it holds on the live state with text "AB" and
selection `[0, 2)` and fails after `SetSoftInputString` with the empty text. -/
theorem C7_selection_invariant_broken :
    SelectionInv State.init
    ∧ (∃ s1, ShowSoftInput platformA 7 [65] 0 false false 10 false 0 5 State.init = .ok s1
        ∧ ¬ SelectionInv s1)
    ∧ SelectionInv { liveA with editFieldSelectionEnd := 2 }
    ∧ (∃ s2, SetSoftInputString [] { liveA with editFieldSelectionEnd := 2 } = .ok s2
        ∧ ¬ SelectionInv s2) :=
  ⟨by decide, ⟨_, rfl, by decide⟩, by decide, ⟨_, rfl, by decide⟩⟩

/-- C7 (amended): with the lock free, `ShowSoftInput` (no live dialog, block
allocated, at most 953 code units) establishes `0 ≤ start ≤ end ≤ len(text)`
when `0 ≤ selectionStart`, `0 ≤ selectionLength` and
`selectionStart + selectionLength ≤ length`; `SetSoftInputString`,
`GetSoftInputString` and the OK handler preserve it when the text they store
is at least `selectionEnd` code units long. -/
theorem C7_selection_invariant :
    (∀ (p : Platform) (hwnd : Nat) (text : List Nat) (type : Int) (ml sec : Bool) (limit : Int)
        (hidden : Bool) (selStart selLen : Int) (s : State),
        s.softInputLock = none → (s.m_Thread = false ∨ s.hWndDlg = 0) →
        p.hgbl ≠ 0 → p.hgbl % 2 = 0 → p.hgbl + TEMPLATE_BYTES ≤ 2 ^ 64 →
        text.length ≤ 953 → 0 ≤ selStart → 0 ≤ selLen → selStart + selLen ≤ text.length →
        ∃ s1, ShowSoftInput p hwnd text type ml sec limit hidden selStart selLen s = .ok s1
          ∧ SelectionInv s1)
    ∧ (∀ (text : List Nat) (s : State),
        s.softInputLock = none → SelectionInv s → s.editFieldSelectionEnd ≤ text.length →
        ∃ s1, SetSoftInputString text s = .ok s1 ∧ SelectionInv s1)
    ∧ (∀ (s : State),
        s.softInputLock = none → SelectionInv s →
        (s.hWndEdit ≠ 0 → s.editFieldSelectionEnd ≤ s.ctlText.length) →
        ∃ r s1, GetSoftInputString s = .ok (r, s1) ∧ SelectionInv s1)
    ∧ (∀ (s : State),
        s.softInputLock = none → SelectionInv s →
        (s.hWndEdit ≠ 0 → s.editFieldSelectionEnd ≤ s.ctlText.length) →
        ∃ s1, DialogProc_WM_COMMAND IDOK s = .ok s1 ∧ SelectionInv s1) := by
  refine ⟨?_, ?_, ?_, ?_⟩
  · intro p hwnd text type ml sec limit hidden selStart selLen s hl hidle hp h2 hlt hlen h0 h1 hsum
    obtain ⟨c, hc⟩ := copyZ_terminated text []
    have hcl := copyZ_length_le _ _ hc
    simp only [List.length_append, List.length_cons, List.length_nil] at hcl
    obtain ⟨s1, hs, hstr, -, -, -, -, -, -, hss, hse, -⟩ := ShowSoftInput_idle p hwnd text type
      ml sec limit hidden selStart selLen s c hl hidle hp h2 hlt hc (by
        simp only [TEMPLATE_BYTES]; omega)
    refine ⟨s1, hs, ?_⟩
    unfold SelectionInv State.text
    rw [hss, hse, hstr]
    simp only [List.dropLast_concat]
    unfold toDWORD
    constructor <;> omega
  · intro text s hl hinv hle
    obtain ⟨s1, hs, hstr, hss, hse⟩ := SetSoftInputString_fields text s hl
    refine ⟨s1, hs, ?_⟩
    unfold SelectionInv State.text at hinv ⊢
    rw [hss, hse, hstr]
    simp only [List.dropLast_concat]
    exact ⟨hinv.1, hle⟩
  · intro s hl hinv hle
    by_cases he : s.hWndEdit = 0
    · exact ⟨_, s, GetSoftInputString_noEdit s he, hinv⟩
    · by_cases hv : s.inputString = s.ctlText ++ [0]
      · exact ⟨_, s, GetSoftInputString_same s hv, hinv⟩
      · refine ⟨_, _, GetSoftInputString_changed s he hl hv, ?_⟩
        unfold SelectionInv State.text at hinv ⊢
        simp only [List.dropLast_concat]
        exact ⟨hinv.1, hle he⟩
  · intro s hl hinv hle
    refine ⟨_, DialogProc_IDOK s hl, ?_⟩
    unfold SelectionInv State.text at hinv ⊢
    by_cases he : s.hWndEdit = 0
    · simp only [he, ne_eq, not_true_eq_false, if_false]
      exact hinv
    · simp only [he, ne_eq, not_false_eq_true, if_true, List.dropLast_concat]
      exact ⟨hinv.1, hle he⟩

theorem C7_selection_invariant_witness :
    (∃ s1, ShowSoftInput platformA 7 [65, 66] 0 false false 10 false 1 1 State.init = .ok s1
      ∧ SelectionInv s1)
    ∧ (∃ s1, SetSoftInputString [67, 68, 69] { liveA with editFieldSelectionEnd := 2 } = .ok s1
      ∧ SelectionInv s1)
    ∧ (∃ r s1, GetSoftInputString { liveA with ctlText := [65, 66, 67] } = .ok (r, s1)
      ∧ SelectionInv s1)
    ∧ (∃ s1, DialogProc_WM_COMMAND IDOK { liveA with ctlText := [65, 66, 67] } = .ok s1
      ∧ SelectionInv s1) :=
  ⟨C7_selection_invariant.1 platformA 7 [65, 66] 0 false false 10 false 1 1 State.init rfl
      (Or.inl rfl) (by decide) (by decide) (by decide) (by decide) (by decide) (by decide)
      (by decide),
   C7_selection_invariant.2.1 [67, 68, 69] { liveA with editFieldSelectionEnd := 2 } rfl
      (by decide) (by decide),
   C7_selection_invariant.2.2.1 { liveA with ctlText := [65, 66, 67] } rfl (by decide)
      (fun _ => by decide),
   C7_selection_invariant.2.2.2 { liveA with ctlText := [65, 66, 67] } rfl (by decide)
      (fun _ => by decide)⟩

end WindowsEditDialog
